import Mathlib

/-!
Verification of `src/scheduler.py` (Earliest-Deadline-First scheduler).

Model: Python `datetime` values and `timedelta`s are embedded as rationals
measured in hours on a common axis (for concrete scenarios we take hours
since 2025-10-19T00:00).  `timedelta(hours=x)` is addition of `x`;
`td.total_seconds() / 3600.0` is the identity under this encoding, so the
per-item `lateness_hours` and the final conversion of `max_lateness` are
both the plain rational value.  Python `sorted` with a key is a stable
sort; it is embedded as `List.insertionSort` with the non-strict key
comparison `byDeadline`, which is stable in exactly the same sense.
-/

namespace Sched

/-- Embedding of the `Task` dataclass of `src/scheduler.py`:
fields `id, name, duration_hours, deadline, priority, client`,
with the dataclass defaults for `priority` and `client`. -/
structure Task where
  id : Int
  name : String
  duration_hours : ℚ
  deadline : ℚ
  priority : String := "média"
  client : String := ""
deriving DecidableEq, Repr

/-- One entry of the `results` list built by `schedule_minimize_lateness`:
the dict with keys `task`, `start`, `finish`, `lateness_hours`. -/
structure ScheduledItem where
  task : Task
  start : ℚ
  finish : ℚ
  lateness_hours : ℚ
deriving DecidableEq, Repr

/-- The returned dict of `schedule_minimize_lateness`: keys `ordered`,
`total_lateness_hours`, `max_lateness_hours`. -/
structure SchedulePlan where
  ordered : List ScheduledItem
  total_lateness_hours : ℚ
  max_lateness_hours : ℚ
deriving DecidableEq, Repr

/-- The sort key comparison of `sorted(tasks, key=lambda t: t.deadline)`. -/
def byDeadline (a b : Task) : Prop := a.deadline ≤ b.deadline

instance : DecidableRel byDeadline :=
  fun a b => inferInstanceAs (Decidable (a.deadline ≤ b.deadline))

instance : IsTotal Task byDeadline := ⟨fun a b => le_total a.deadline b.deadline⟩

instance : IsTrans Task byDeadline := ⟨fun _ _ _ h1 h2 => le_trans h1 h2⟩

/-- The `for task in ordered_tasks` loop of `schedule_minimize_lateness`,
threading the accumulators `current_time`, `total_lateness`, `max_lateness`.
Returns `(results, total_lateness, max_lateness)`.  The Python guard
`if lateness_td > max_lateness` is the comparison `maxL < lateness`. -/
def schedLoop (current total maxL : ℚ) : List Task → List ScheduledItem × ℚ × ℚ
  | [] => ([], total, maxL)
  | t :: ts =>
    let finish_time := current + t.duration_hours
    let lateness := max 0 (finish_time - t.deadline)
    let rest := schedLoop finish_time (total + lateness)
      (if maxL < lateness then lateness else maxL) ts
    (⟨t, current, finish_time, lateness⟩ :: rest.1, rest.2)

/-- Embedding of `schedule_minimize_lateness(tasks, start_time)`:
stable sort by deadline, then one sequential pass from `start_time`. -/
def schedule_minimize_lateness (tasks : List Task) (start_time : ℚ) : SchedulePlan :=
  let ordered_tasks := tasks.insertionSort byDeadline
  let r := schedLoop start_time 0 0 ordered_tasks
  ⟨r.1, r.2.1, r.2.2⟩

/-- Strict sequential packing of a list of scheduled items starting at `st`:
the first item starts at `st`, each item finishes at start + duration, and
each later item starts exactly at the previous finish. -/
def packedFrom (st : ℚ) : List ScheduledItem → Prop
  | [] => True
  | item :: rest =>
      item.start = st ∧ item.finish = item.start + item.task.duration_hours ∧
        packedFrom item.finish rest

instance instDecidablePackedFrom :
    ∀ (st : ℚ) (l : List ScheduledItem), Decidable (packedFrom st l)
  | _, [] => isTrue trivial
  | st, a :: l =>
    have : Decidable (packedFrom a.finish l) := instDecidablePackedFrom a.finish l
    decidable_of_iff
      (a.start = st ∧ a.finish = a.start + a.task.duration_hours ∧ packedFrom a.finish l)
      Iff.rfl

/-- The Boolean predicate selecting tasks whose deadline is `d`. -/
def deadlineIs (d : ℚ) (t : Task) : Bool := decide (t.deadline = d)

theorem schedLoop_map_task : ∀ (ts : List Task) (c tot mx : ℚ),
    ((schedLoop c tot mx ts).1).map (fun i => i.task) = ts
  | [], _, _, _ => rfl
  | t :: ts, c, tot, mx => by
    simp only [schedLoop, List.map_cons]
    rw [schedLoop_map_task ts]

theorem schedLoop_packed : ∀ (ts : List Task) (c tot mx : ℚ),
    packedFrom c (schedLoop c tot mx ts).1
  | [], _, _, _ => trivial
  | t :: ts, c, tot, mx => by
    simp only [schedLoop, packedFrom]
    refine ⟨by simp, by simp, ?_⟩
    exact schedLoop_packed ts _ _ _

theorem schedLoop_total : ∀ (ts : List Task) (c tot mx : ℚ),
    (schedLoop c tot mx ts).2.1 =
      tot + (((schedLoop c tot mx ts).1).map (fun i => i.lateness_hours)).sum
  | [], _, _, _ => by simp [schedLoop]
  | t :: ts, c, tot, mx => by
    simp only [schedLoop, List.map_cons, List.sum_cons]
    rw [schedLoop_total ts, add_assoc]

theorem foldr_max_shift : ∀ (L : List ℚ) (a b : ℚ),
    L.foldr max (max a b) = max a (L.foldr max b)
  | [], _, _ => rfl
  | c :: L, a, b => by
    simp only [List.foldr_cons]
    rw [foldr_max_shift L a b, max_left_comm]

theorem if_lt_eq_max (l mx : ℚ) : (if mx < l then l else mx) = max l mx := by
  rcases lt_or_le mx l with h | h
  · rw [if_pos h, max_eq_left h.le]
  · rw [if_neg (not_lt.mpr h), max_eq_right h]

theorem schedLoop_max : ∀ (ts : List Task) (c tot mx : ℚ),
    (schedLoop c tot mx ts).2.2 =
      (((schedLoop c tot mx ts).1).map (fun i => i.lateness_hours)).foldr max mx
  | [], _, _, _ => rfl
  | t :: ts, c, tot, mx => by
    simp only [schedLoop, List.map_cons, List.foldr_cons]
    rw [schedLoop_max ts, if_lt_eq_max]
    exact foldr_max_shift _ _ _

theorem schedLoop_lateness : ∀ (ts : List Task) (c tot mx : ℚ) (item : ScheduledItem),
    item ∈ (schedLoop c tot mx ts).1 →
      item.lateness_hours = max 0 (item.finish - item.task.deadline)
  | t :: ts, c, tot, mx, item, h => by
    simp only [schedLoop, List.mem_cons] at h
    rcases h with h | h
    · subst h; rfl
    · exact schedLoop_lateness ts _ _ _ item h

theorem schedLoop_finish_mem : ∀ (ts : List Task) (c tot mx : ℚ) (item : ScheduledItem),
    item ∈ (schedLoop c tot mx ts).1 →
      item.finish = item.start + item.task.duration_hours
  | t :: ts, c, tot, mx, item, h => by
    simp only [schedLoop, List.mem_cons] at h
    rcases h with h | h
    · subst h; rfl
    · exact schedLoop_finish_mem ts _ _ _ item h

theorem filter_orderedInsert_pos (d : ℚ) (a : Task) (ha : a.deadline = d) :
    ∀ l : List Task, ((l.orderedInsert byDeadline a).filter (deadlineIs d)) =
      a :: l.filter (deadlineIs d)
  | [] => by simp [List.orderedInsert, deadlineIs, ha]
  | b :: l => by
    rw [List.orderedInsert]
    split_ifs with h
    · simp [List.filter_cons, deadlineIs, ha]
    · have hb : b.deadline ≠ d := fun hbd => h (le_of_eq (ha.trans hbd.symm))
      simp only [List.filter_cons]
      rw [if_neg (by simp [deadlineIs, hb]), if_neg (by simp [deadlineIs, hb]),
        filter_orderedInsert_pos d a ha l]

theorem filter_orderedInsert_neg (d : ℚ) (a : Task) (ha : a.deadline ≠ d) :
    ∀ l : List Task, ((l.orderedInsert byDeadline a).filter (deadlineIs d)) =
      l.filter (deadlineIs d)
  | [] => by simp [List.orderedInsert, deadlineIs, ha]
  | b :: l => by
    rw [List.orderedInsert]
    split_ifs with h
    · simp [List.filter_cons, deadlineIs, ha]
    · simp only [List.filter_cons]
      rw [filter_orderedInsert_neg d a ha l]

theorem filter_insertionSort (d : ℚ) : ∀ l : List Task,
    ((l.insertionSort byDeadline).filter (deadlineIs d)) = l.filter (deadlineIs d)
  | [] => rfl
  | a :: l => by
    rw [List.insertionSort]
    by_cases ha : a.deadline = d
    · rw [filter_orderedInsert_pos d a ha, filter_insertionSort d l]
      simp [List.filter_cons, deadlineIs, ha]
    · rw [filter_orderedInsert_neg d a ha, filter_insertionSort d l]
      simp [List.filter_cons, deadlineIs, ha]

/-- Agreement of two tasks on the fields the scheduler reads:
`id`, `duration_hours` and `deadline` (not `name`, `priority`, `client`). -/
def CoreAgree (a b : Task) : Prop :=
  a.id = b.id ∧ a.duration_hours = b.duration_hours ∧ a.deadline = b.deadline

/-- Agreement of two scheduled items on everything the schedule determines:
the scheduled task (by id), start, finish and lateness. -/
def ItemAgree (x y : ScheduledItem) : Prop :=
  x.task.id = y.task.id ∧ x.start = y.start ∧ x.finish = y.finish ∧
    x.lateness_hours = y.lateness_hours

theorem orderedInsert_forall₂ {a b : Task} (hab : CoreAgree a b) :
    ∀ {l1 l2 : List Task}, List.Forall₂ CoreAgree l1 l2 →
      List.Forall₂ CoreAgree (l1.orderedInsert byDeadline a) (l2.orderedInsert byDeadline b) := by
  intro l1 l2 h
  induction h with
  | nil => exact .cons hab .nil
  | cons hcd hl ih =>
    rw [List.orderedInsert, List.orderedInsert]
    rename_i c d l1 l2
    have hiff : byDeadline a c ↔ byDeadline b d := by
      unfold byDeadline
      rw [hab.2.2, hcd.2.2]
    by_cases hac : byDeadline a c
    · rw [if_pos hac, if_pos (hiff.mp hac)]
      exact .cons hab (.cons hcd hl)
    · rw [if_neg hac, if_neg (fun hbd => hac (hiff.mpr hbd))]
      exact .cons hcd ih

theorem insertionSort_forall₂ {l1 l2 : List Task} (h : List.Forall₂ CoreAgree l1 l2) :
    List.Forall₂ CoreAgree (l1.insertionSort byDeadline) (l2.insertionSort byDeadline) := by
  induction h with
  | nil => exact .nil
  | cons hcd hl ih =>
    rw [List.insertionSort, List.insertionSort]
    exact orderedInsert_forall₂ hcd ih

theorem schedLoop_forall₂ {l1 l2 : List Task} (h : List.Forall₂ CoreAgree l1 l2) :
    ∀ (c tot mx : ℚ),
      List.Forall₂ ItemAgree (schedLoop c tot mx l1).1 (schedLoop c tot mx l2).1 ∧
      (schedLoop c tot mx l1).2.1 = (schedLoop c tot mx l2).2.1 ∧
      (schedLoop c tot mx l1).2.2 = (schedLoop c tot mx l2).2.2 := by
  induction h with
  | nil => exact fun c tot mx => ⟨.nil, rfl, rfl⟩
  | cons hcd hl ih =>
    intro c tot mx
    obtain ⟨hid, hdur, hdl⟩ := hcd
    simp only [schedLoop]
    rw [hdur, hdl]
    obtain ⟨h1, h2, h3⟩ := ih _ _ _
    exact ⟨.cons ⟨hid, rfl, rfl, rfl⟩ h1, h2, h3⟩

/-- Task 1 of `_parse_example_tasks`: 4 hours, deadline 2025-10-20T17:00,
i.e. 41 hours after the 2025-10-19T00:00 origin; `client` defaulted. -/
def exTask1 : Task :=
  { id := 1, name := "Petição Inicial", duration_hours := 4, deadline := 41, priority := "alta" }

/-- Task 2 of `_parse_example_tasks`: 2 hours, deadline 2025-10-19T10:00 = 10 h. -/
def exTask2 : Task :=
  { id := 2, name := "Audiência", duration_hours := 2, deadline := 10, priority := "alta" }

/-- Task 3 of `_parse_example_tasks`: 3 hours, deadline 2025-10-21T12:00 = 60 h. -/
def exTask3 : Task :=
  { id := 3, name := "Contestação", duration_hours := 3, deadline := 60 }

/-- A small witness task: 1 hour of work, deadline at hour 2. -/
def wTaskA : Task := { id := 1, name := "a", duration_hours := 1, deadline := 2 }

/-- A second witness task with the same deadline as `wTaskA`. -/
def wTaskB : Task := { id := 2, name := "b", duration_hours := 2, deadline := 2 }

/-- Like `wTaskA` but with different name, priority and client fields. -/
def wTaskA2 : Task :=
  { id := 1, name := "x", duration_hours := 1, deadline := 2, priority := "alta", client := "c" }

/-- A malformed witness task with negative duration. -/
def wTaskNeg : Task := { id := 3, name := "n", duration_hours := -2, deadline := 0 }

/-- Claim C1: for every non-empty task list and start time, the ordered
sequence of the plan carries a permutation of the input of the same length,
sorted by deadline ascending, and stably so: for every deadline value `d`,
the subsequence of tasks with deadline `d` equals the input's subsequence
with deadline `d` (original relative order preserved). -/
theorem C1_edf_order_stable (tasks : List Task) (start_time d : ℚ) (_hne : tasks ≠ []) :
    ((schedule_minimize_lateness tasks start_time).ordered.map (fun i => i.task)).Perm tasks ∧
    (schedule_minimize_lateness tasks start_time).ordered.length = tasks.length ∧
    List.Sorted byDeadline
      ((schedule_minimize_lateness tasks start_time).ordered.map (fun i => i.task)) ∧
    ((schedule_minimize_lateness tasks start_time).ordered.map (fun i => i.task)).filter
        (deadlineIs d) = tasks.filter (deadlineIs d) := by
  have hmap : (schedule_minimize_lateness tasks start_time).ordered.map (fun i => i.task)
      = tasks.insertionSort byDeadline := schedLoop_map_task _ _ _ _
  refine ⟨?_, ?_, ?_, ?_⟩
  · rw [hmap]
    exact List.perm_insertionSort byDeadline tasks
  · have h := congrArg List.length hmap
    rw [List.length_map, List.length_insertionSort] at h
    exact h
  · rw [hmap]
    exact List.sorted_insertionSort byDeadline tasks
  · rw [hmap]
    exact filter_insertionSort d tasks

/-- Witness for C1 on the concrete two-task list with equal deadlines. -/
theorem C1_edf_order_stable_witness :
    (([wTaskA, wTaskB] : List Task) ≠ []) ∧
    (((schedule_minimize_lateness [wTaskA, wTaskB] 0).ordered.map (fun i => i.task)).Perm
        [wTaskA, wTaskB] ∧
      (schedule_minimize_lateness [wTaskA, wTaskB] 0).ordered.length =
        ([wTaskA, wTaskB] : List Task).length ∧
      List.Sorted byDeadline
        ((schedule_minimize_lateness [wTaskA, wTaskB] 0).ordered.map (fun i => i.task)) ∧
      ((schedule_minimize_lateness [wTaskA, wTaskB] 0).ordered.map (fun i => i.task)).filter
          (deadlineIs 2) = ([wTaskA, wTaskB] : List Task).filter (deadlineIs 2)) :=
  ⟨List.cons_ne_nil _ _, C1_edf_order_stable [wTaskA, wTaskB] 0 2 (List.cons_ne_nil _ _)⟩

/-- Claim C2: for every task list and start time the returned items are
strictly sequentially packed from `start_time`: the first item starts at
`start_time`, each item finishes at its start plus its duration, and each
later item starts exactly at the previous item's finish. -/
theorem C2_sequential_packing (tasks : List Task) (start_time : ℚ) :
    packedFrom start_time (schedule_minimize_lateness tasks start_time).ordered :=
  schedLoop_packed _ _ _ _

/-- Claim C3: the reported `total_lateness_hours` is the sum of the items'
`lateness_hours` fields and the reported `max_lateness_hours` is their
maximum, taken as 0 when there are no items. -/
theorem C3_aggregates (tasks : List Task) (start_time : ℚ) :
    (schedule_minimize_lateness tasks start_time).total_lateness_hours =
      ((schedule_minimize_lateness tasks start_time).ordered.map
        (fun i => i.lateness_hours)).sum ∧
    (schedule_minimize_lateness tasks start_time).max_lateness_hours =
      ((schedule_minimize_lateness tasks start_time).ordered.map
        (fun i => i.lateness_hours)).foldr max 0 := by
  constructor
  · have h := schedLoop_total (tasks.insertionSort byDeadline) start_time 0 0
    rw [zero_add] at h
    exact h
  · exact schedLoop_max (tasks.insertionSort byDeadline) start_time 0 0

/-- Claim C4: every scheduled item's lateness equals
`max 0 (finish - deadline)` (in hours); hence it is nonnegative and it is 0
whenever the item finishes on or before its deadline. -/
theorem C4_lateness_formula (tasks : List Task) (start_time : ℚ) (item : ScheduledItem)
    (hmem : item ∈ (schedule_minimize_lateness tasks start_time).ordered) :
    item.lateness_hours = max 0 (item.finish - item.task.deadline) ∧
    0 ≤ item.lateness_hours ∧
    (item.finish ≤ item.task.deadline → item.lateness_hours = 0) := by
  have h := schedLoop_lateness _ _ _ _ item hmem
  refine ⟨h, ?_, ?_⟩
  · rw [h]
    exact le_max_left _ _
  · intro hfd
    rw [h, max_eq_left (sub_nonpos.mpr hfd)]

/-- Witness for C4 on a one-task schedule finishing before its deadline. -/
theorem C4_lateness_formula_witness :
    (⟨wTaskA, 0, 1, 0⟩ : ScheduledItem) ∈ (schedule_minimize_lateness [wTaskA] 0).ordered ∧
    ((⟨wTaskA, 0, 1, 0⟩ : ScheduledItem).lateness_hours =
        max 0 ((⟨wTaskA, 0, 1, 0⟩ : ScheduledItem).finish -
          (⟨wTaskA, 0, 1, 0⟩ : ScheduledItem).task.deadline) ∧
      0 ≤ (⟨wTaskA, 0, 1, 0⟩ : ScheduledItem).lateness_hours ∧
      ((⟨wTaskA, 0, 1, 0⟩ : ScheduledItem).finish ≤
          (⟨wTaskA, 0, 1, 0⟩ : ScheduledItem).task.deadline →
        (⟨wTaskA, 0, 1, 0⟩ : ScheduledItem).lateness_hours = 0)) :=
  ⟨by norm_num [schedule_minimize_lateness, schedLoop, List.insertionSort,
      List.orderedInsert, wTaskA],
    C4_lateness_formula [wTaskA] 0 ⟨wTaskA, 0, 1, 0⟩
      (by norm_num [schedule_minimize_lateness, schedLoop, List.insertionSort,
        List.orderedInsert, wTaskA])⟩

/-- Claim C5: on the empty task list the function succeeds and returns the
empty plan with zero total and zero max lateness, for any start time. -/
theorem C5_empty_input (start_time : ℚ) :
    schedule_minimize_lateness [] start_time =
      { ordered := [], total_lateness_hours := 0, max_lateness_hours := 0 } := rfl

/-- Claim C6: the scheduler is deterministic — two calls on equal task lists
and equal start times return equal plans. -/
theorem C6_deterministic (tasks1 tasks2 : List Task) (st1 st2 : ℚ)
    (ht : tasks1 = tasks2) (hs : st1 = st2) :
    schedule_minimize_lateness tasks1 st1 = schedule_minimize_lateness tasks2 st2 := by
  rw [ht, hs]

/-- Witness for C6 at a concrete repeated input. -/
theorem C6_deterministic_witness :
    schedule_minimize_lateness [wTaskA] 0 = schedule_minimize_lateness [wTaskA] 0 :=
  C6_deterministic [wTaskA] [wTaskA] 0 0 rfl rfl

/-- Claim C7: `name`, `priority` and `client` do not influence the schedule:
if two task lists agree pointwise on `id`, `duration_hours` and `deadline`,
the two plans agree item by item on task id, start, finish and lateness, and
on both aggregates. -/
theorem C7_informational_fields_irrelevant (tasks1 tasks2 : List Task) (start_time : ℚ)
    (h : List.Forall₂ CoreAgree tasks1 tasks2) :
    List.Forall₂ ItemAgree (schedule_minimize_lateness tasks1 start_time).ordered
      (schedule_minimize_lateness tasks2 start_time).ordered ∧
    (schedule_minimize_lateness tasks1 start_time).total_lateness_hours =
      (schedule_minimize_lateness tasks2 start_time).total_lateness_hours ∧
    (schedule_minimize_lateness tasks1 start_time).max_lateness_hours =
      (schedule_minimize_lateness tasks2 start_time).max_lateness_hours :=
  schedLoop_forall₂ (insertionSort_forall₂ h) start_time 0 0

/-- Witness for C7 on two one-task lists differing only in name, priority
and client. -/
theorem C7_informational_fields_irrelevant_witness :
    List.Forall₂ ItemAgree (schedule_minimize_lateness [wTaskA] 0).ordered
      (schedule_minimize_lateness [wTaskA2] 0).ordered ∧
    (schedule_minimize_lateness [wTaskA] 0).total_lateness_hours =
      (schedule_minimize_lateness [wTaskA2] 0).total_lateness_hours ∧
    (schedule_minimize_lateness [wTaskA] 0).max_lateness_hours =
      (schedule_minimize_lateness [wTaskA2] 0).max_lateness_hours :=
  C7_informational_fields_irrelevant [wTaskA] [wTaskA2] 0
    (List.Forall₂.cons ⟨rfl, rfl, rfl⟩ List.Forall₂.nil)

/-- Claim C8: on the three example tasks with start 2025-10-19T08:00 (hour 8)
the plan runs task 2 at 08:00–10:00, task 1 at 10:00–14:00 and task 3 at
14:00–17:00, all latenesses 0, total 0 and max 0. -/
theorem C8_scenario_a :
    schedule_minimize_lateness [exTask1, exTask2, exTask3] 8 =
      { ordered :=
          [ { task := exTask2, start := 8, finish := 10, lateness_hours := 0 },
            { task := exTask1, start := 10, finish := 14, lateness_hours := 0 },
            { task := exTask3, start := 14, finish := 17, lateness_hours := 0 } ],
        total_lateness_hours := 0,
        max_lateness_hours := 0 } := by
  norm_num [schedule_minimize_lateness, schedLoop, List.insertionSort, List.orderedInsert,
    byDeadline, exTask1, exTask2, exTask3]

/-- State-passing embedding of one call from the caller's point of view: the
caller's task list is threaded through the body of
`schedule_minimize_lateness`.  `sorted(tasks)` only reads the list and
allocates a new sorted list, the loop reads the sorted copy and each `task`
record without assigning to any field, and `results` is a freshly built
list, so the threaded caller list flows through unchanged and is returned
next to the result. -/
def schedule_call (tasks : List Task) (start_time : ℚ) : List Task × SchedulePlan :=
  let ordered_tasks := tasks.insertionSort byDeadline
  let r := schedLoop start_time 0 0 ordered_tasks
  (tasks, ⟨r.1, r.2.1, r.2.2⟩)

/-- Claim C9: the call leaves the caller's task list exactly as it was —
same elements, same order, every field unchanged — while producing the same
plan as `schedule_minimize_lateness`. -/
theorem C9_no_mutation (tasks : List Task) (start_time : ℚ) :
    (schedule_call tasks start_time).1 = tasks ∧
    (schedule_call tasks start_time).2 = schedule_minimize_lateness tasks start_time :=
  ⟨rfl, rfl⟩

/-- Claim C10: the function is total on every task list, negative durations
included: every returned item still has nonnegative lateness, and an item
whose task has negative duration finishes strictly before it starts. -/
theorem C10_negative_duration_total (tasks : List Task) (start_time : ℚ)
    (item : ScheduledItem)
    (hmem : item ∈ (schedule_minimize_lateness tasks start_time).ordered) :
    0 ≤ item.lateness_hours ∧
    (item.task.duration_hours < 0 → item.finish < item.start) := by
  constructor
  · rw [schedLoop_lateness _ _ _ _ item hmem]
    exact le_max_left _ _
  · intro hneg
    rw [schedLoop_finish_mem _ _ _ _ item hmem]
    linarith

/-- Witness for C10 on a task with duration −2 scheduled from hour 5. -/
theorem C10_negative_duration_total_witness :
    (⟨wTaskNeg, 5, 3, 3⟩ : ScheduledItem) ∈
      (schedule_minimize_lateness [wTaskNeg] 5).ordered ∧
    (0 ≤ (⟨wTaskNeg, 5, 3, 3⟩ : ScheduledItem).lateness_hours ∧
      ((⟨wTaskNeg, 5, 3, 3⟩ : ScheduledItem).task.duration_hours < 0 →
        (⟨wTaskNeg, 5, 3, 3⟩ : ScheduledItem).finish <
          (⟨wTaskNeg, 5, 3, 3⟩ : ScheduledItem).start)) :=
  ⟨by norm_num [schedule_minimize_lateness, schedLoop, List.insertionSort,
      List.orderedInsert, wTaskNeg],
    C10_negative_duration_total [wTaskNeg] 5 ⟨wTaskNeg, 5, 3, 3⟩
      (by norm_num [schedule_minimize_lateness, schedLoop, List.insertionSort,
        List.orderedInsert, wTaskNeg])⟩

end Sched
